import Mathlib

/-!
Verification development for the credential-handling and record-storage core
of `src/main.py` (class `Database` plus its schema).

Modelling choices (shallow embedding):
* Python `str` values are modelled as `List Char`; SQLite rows as structures.
* `hashlib.pbkdf2_hmac('sha256', password, salt, 100000)` is an external
  primitive; it is modelled as an arbitrary function
  `kdf : List Char → List Char → List Nat` producing a byte list, and
  `bytes.hex()` is modelled concretely by `bytesHex`.
* `secrets.token_hex(16)` (the fresh salt drawn when `salt is None`) is
  modelled by an explicit `freshSalt` argument; its output alphabet is the
  hex alphabet `hexDigits`.
* A `sqlite3.Error` raised by the underlying store during one call is
  modelled by a boolean `fail` argument: `fail = true` takes the `except
  sqlite3.Error` branch of the corresponding Python method.
* The fixed Russian message strings returned by the Python methods are
  modelled by the inductives `RegResult` and `LoginResult`; each constructor
  is annotated with the exact tuple the source returns.
-/

/-- The lowercase hex digit character for a value below 16: `0`-`9` are code
points 48-57 and `a`-`f` are 97-102. -/
def hexDigitChar (n : Nat) : Char :=
  Char.ofNat (if n < 10 then 48 + n else 87 + n)

/-- The sixteen characters `bytes.hex()` and `secrets.token_hex` draw from. -/
def hexDigits : List Char := (List.range 16).map hexDigitChar

/-- The hex digit of a value below 16 (defaulting to `'0'` out of range). -/
def hexDigit (n : Nat) : Char := hexDigits.getD n '0'

/-- Model of Python `bytes.hex()`: two lowercase hex digits per byte. -/
def bytesHex (bs : List Nat) : List Char :=
  bs.flatMap (fun b => [hexDigit (b / 16 % 16), hexDigit (b % 16)])

/-- Model of Python `str.split('$')`: split on every `'$'` occurrence;
the result always has one more part than there are `'$'` characters. -/
def splitD : List Char → List (List Char)
  | [] => [[]]
  | c :: cs =>
    let r := splitD cs
    if c = '$' then [] :: r else (c :: r.headI) :: r.tail

/-- Embedding of `Database.hash_password` (src/main.py lines 78-83).
`kdf` models `hashlib.pbkdf2_hmac('sha256', password, salt, 100000)`;
`freshSalt` models the value `secrets.token_hex(16)` returns on this call,
used only when `salt` is `None`.  The result is `salt ++ "$" ++ digest.hex()`,
exactly the Python f-string. -/
def hash_password (kdf : List Char → List Char → List Nat) (freshSalt : List Char)
    (password : List Char) (salt : Option (List Char)) : List Char :=
  let s := salt.getD freshSalt
  s ++ '$' :: bytesHex (kdf password s)

/-- Embedding of `Database.verify_password` (src/main.py lines 85-89).
`salt, hashed = stored_password.split('$')` raises `ValueError` unless the
split yields exactly two parts; that exception is modelled by `none`.
Otherwise the method recomputes `hash_password(provided_password, salt)` and
compares it with the whole `stored_password` string. -/
def verify_password (kdf : List Char → List Char → List Nat)
    (stored_password provided_password : List Char) : Option Bool :=
  match splitD stored_password with
  | [salt, _hashed] =>
      some (hash_password kdf [] provided_password (some salt) == stored_password)
  | _ => none

lemma hexDigit_mod_ne_dollar (n : Nat) : hexDigit (n % 16) ≠ '$' := by
  have h : n % 16 < 16 := Nat.mod_lt _ (by decide)
  revert h
  have : ∀ m, m < 16 → hexDigit m ≠ '$' := by decide
  exact this (n % 16)

lemma dollar_not_mem_bytesHex (bs : List Nat) : '$' ∉ bytesHex bs := by
  intro hmem
  induction bs with
  | nil => simp [bytesHex] at hmem
  | cons b bs ih =>
    simp only [bytesHex, List.flatMap_cons, List.mem_append] at hmem
    rcases hmem with h | h
    · simp only [List.mem_cons, List.not_mem_nil, or_false] at h
      rcases h with h | h
      · exact hexDigit_mod_ne_dollar (b / 16) h.symm
      · exact hexDigit_mod_ne_dollar b h.symm
    · exact ih h

lemma splitD_ne_nil (l : List Char) : splitD l ≠ [] := by
  cases l with
  | nil => simp [splitD]
  | cons c cs =>
    simp only [splitD]
    split <;> simp

lemma splitD_no_dollar (l : List Char) (h : '$' ∉ l) : splitD l = [l] := by
  induction l with
  | nil => rfl
  | cons c cs ih =>
    have hc : c ≠ '$' := fun hc => h (hc ▸ List.mem_cons_self c cs)
    have hcs : '$' ∉ cs := fun hm => h (List.mem_cons_of_mem c hm)
    simp [splitD, hc, ih hcs]

lemma splitD_append_dollar (l r : List Char) (h : '$' ∉ l) :
    splitD (l ++ '$' :: r) = l :: splitD r := by
  induction l with
  | nil => simp [splitD]
  | cons c cs ih =>
    have hc : c ≠ '$' := fun hc => h (hc ▸ List.mem_cons_self c cs)
    have hcs : '$' ∉ cs := fun hm => h (List.mem_cons_of_mem c hm)
    simp [splitD, hc, ih hcs]

lemma splitD_length (l : List Char) : (splitD l).length = l.count '$' + 1 := by
  induction l with
  | nil => rfl
  | cons c cs ih =>
    by_cases hc : c = '$'
    · subst hc
      simp [splitD, List.count_cons, ih]
    · obtain ⟨p, ps, hps⟩ := List.exists_cons_of_ne_nil (splitD_ne_nil cs)
      simp [splitD, hc, hps, List.count_cons]
      have := ih
      rw [hps] at this
      simpa using this

/-- The stored string produced by `hash_password` with a dollar-free salt
splits back into exactly the salt and the digest. -/
lemma splitD_hash_password (kdf : List Char → List Char → List Nat)
    (fs p salt : List Char) (h : '$' ∉ salt) :
    splitD (hash_password kdf fs p (some salt)) =
      [salt, bytesHex (kdf p salt)] := by
  show splitD (salt ++ '$' :: bytesHex (kdf p salt)) = _
  rw [splitD_append_dollar _ _ h, splitD_no_dollar _ (dollar_not_mem_bytesHex _)]

/-- One row of the `users` table (src/main.py lines 27-35).  `password` holds
the `hash_password` output; `email` may be the empty string; `is_active`
defaults to 1 (`true`); `last_login` is NULL (`none`) until a successful
login. -/
structure UserRow where
  id : Nat
  username : List Char
  password : List Char
  email : List Char
  created_at : Nat
  last_login : Option Nat
  is_active : Bool
deriving DecidableEq

/-- One row of the `user_data` table (src/main.py lines 38-47). -/
structure DataRow where
  id : Nat
  user_id : Nat
  title : List Char
  data : List Char
  category : List Char
  created_at : Nat
  updated_at : Nat
deriving DecidableEq

/-- One row of the `login_attempts` table (src/main.py lines 50-56). -/
structure AttemptRow where
  id : Nat
  username : List Char
  ip_address : Option (List Char)
  attempt_time : Nat
  success : Bool
deriving DecidableEq

/-- The persistent state of the three tables created by
`Database.create_tables`, together with the AUTOINCREMENT counters. -/
structure Database where
  users : List UserRow
  user_data : List DataRow
  login_attempts : List AttemptRow
  next_user_id : Nat
  next_data_id : Nat
deriving DecidableEq

/-- Outcome of `Database.register_user`, abstracting the returned
`(bool, message)` tuples of src/main.py lines 91-112. -/
inductive RegResult where
  /-- `(True, "Регистрация успешна")` -/
  | ok : RegResult
  /-- `(False, "Пользователь с таким именем или email уже существует")` -/
  | duplicateUser : RegResult
  /-- `(False, "Ошибка базы данных: ...")` from the `except sqlite3.Error` arm -/
  | dbError : RegResult
deriving DecidableEq

/-- Outcome of `Database.login_user`, abstracting the returned tuples of
src/main.py lines 114-142. -/
inductive LoginResult where
  /-- `(True, dict with id and username)` -/
  | ok : Nat → List Char → LoginResult
  /-- `(False, "Пользователь не найден или заблокирован")` -/
  | notFoundOrInactive : LoginResult
  /-- `(False, "Неверный пароль")` -/
  | wrongPassword : LoginResult
  /-- `(False, "Ошибка базы данных: ...")` from the `except sqlite3.Error` arm -/
  | dbError : LoginResult
deriving DecidableEq

/-- Embedding of `Database.register_user` (src/main.py lines 91-112).
The duplicate check runs `SELECT id FROM users WHERE username = ? OR
email = ?` and fails when `fetchone()` returns a row; note that the SQL
compares the email column verbatim, with no non-empty guard.  On success one
row is inserted with the SQL defaults `created_at = CURRENT_TIMESTAMP`
(modelled by `now`), `last_login = NULL`, `is_active = 1`. -/
def register_user (db : Database) (fail : Bool)
    (kdf : List Char → List Char → List Nat) (freshSalt : List Char) (now : Nat)
    (username password email : List Char) : RegResult × Database :=
  if fail then (RegResult.dbError, db)
  else if db.users.any (fun u => u.username == username || u.email == email) then
    (RegResult.duplicateUser, db)
  else
    (RegResult.ok,
      { db with
        users := db.users ++
          [{ id := db.next_user_id, username := username,
             password := hash_password kdf freshSalt password none,
             email := email, created_at := now, last_login := none,
             is_active := true }],
        next_user_id := db.next_user_id + 1 })

/-- Embedding of `Database.login_user` (src/main.py lines 114-142).
`SELECT ... WHERE username = ? AND is_active = 1` with `fetchone()` is the
first matching row.  A `ValueError` escaping `verify_password` is not caught
by `except sqlite3.Error`, so the whole call is `none` in that case.  On a
successful verification `UPDATE users SET last_login = CURRENT_TIMESTAMP
WHERE id = ?` is applied.  The method never touches `login_attempts`. -/
def login_user (db : Database) (fail : Bool)
    (kdf : List Char → List Char → List Nat) (now : Nat)
    (username password : List Char) : Option (LoginResult × Database) :=
  if fail then some (LoginResult.dbError, db)
  else
    match db.users.find? (fun u => u.username == username && u.is_active) with
    | none => some (LoginResult.notFoundOrInactive, db)
    | some u =>
      match verify_password kdf u.password password with
      | none => none
      | some true =>
          some (LoginResult.ok u.id u.username,
            { db with
              users := db.users.map (fun v =>
                if v.id == u.id then { v with last_login := some now } else v) })
      | some false => some (LoginResult.wrongPassword, db)

/-- Embedding of `Database.save_user_data` (src/main.py lines 144-154).
The Python signature is `save_user_data(self, user_id, title, data,
category="General")`: the `"General"` default is a Python default argument,
applied only when the caller omits `category`; whatever string is passed is
inserted verbatim.  `created_at` and `updated_at` take the SQL default
`CURRENT_TIMESTAMP`, modelled by `now`. -/
def save_user_data (db : Database) (fail : Bool) (now : Nat) (user_id : Nat)
    (title data category : List Char) : Bool × Database :=
  if fail then (false, db)
  else
    (true,
      { db with
        user_data := db.user_data ++
          [{ id := db.next_data_id, user_id := user_id, title := title,
             data := data, category := category, created_at := now,
             updated_at := now }],
        next_data_id := db.next_data_id + 1 })

/-- Python truthiness of the `category` argument in `if category:`
(src/main.py line 159): `None` and the empty string are falsy. -/
def categoryTruthy : Option (List Char) → Bool
  | none => false
  | some s => !s.isEmpty

/-- Insertion step of a stable descending sort on `created_at`, modelling
`ORDER BY created_at DESC`. -/
def insertDesc (a : DataRow) : List DataRow → List DataRow
  | [] => [a]
  | b :: bs =>
    if b.created_at ≤ a.created_at then a :: b :: bs else b :: insertDesc a bs

/-- Stable sort by `created_at` descending, modelling
`ORDER BY created_at DESC` of the `user_data` queries. -/
def sortByCreatedDesc : List DataRow → List DataRow
  | [] => []
  | a :: as => insertDesc a (sortByCreatedDesc as)

/-- Embedding of `Database.get_user_data` (src/main.py lines 156-176).
The Python code branches on `if category:` (truthiness), so a `None` or
empty-string category runs the unfiltered query; either branch selects the
caller's rows ordered by `created_at DESC`, and `except sqlite3.Error`
returns `[]`. -/
def get_user_data (db : Database) (fail : Bool) (user_id : Nat)
    (category : Option (List Char)) : List DataRow :=
  if fail then []
  else if categoryTruthy category then
    sortByCreatedDesc (db.user_data.filter
      (fun r => r.user_id == user_id && r.category == category.getD []))
  else
    sortByCreatedDesc (db.user_data.filter (fun r => r.user_id == user_id))

/-- Lexicographic comparison of strings by code point, modelling SQLite's
default TEXT ordering used by `ORDER BY category`. -/
def lexLe : List Char → List Char → Bool
  | [], _ => true
  | _ :: _, [] => false
  | a :: as, b :: bs => if a = b then lexLe as bs else decide (a < b)

/-- Insertion step of the ascending string sort. -/
def insertStr (s : List Char) : List (List Char) → List (List Char)
  | [] => [s]
  | t :: ts => if lexLe s t then s :: t :: ts else t :: insertStr s ts

/-- Ascending string sort, modelling `ORDER BY category`. -/
def sortStrs : List (List Char) → List (List Char)
  | [] => []
  | s :: ss => insertStr s (sortStrs ss)

/-- Embedding of `Database.get_categories` (src/main.py lines 178-187):
`SELECT DISTINCT category FROM user_data WHERE user_id = ? ORDER BY
category`, with `except sqlite3.Error` returning `[]`. -/
def get_categories (db : Database) (fail : Bool) (user_id : Nat) :
    List (List Char) :=
  if fail then []
  else
    sortStrs (((db.user_data.filter (fun r => r.user_id == user_id)).map
      (fun r => r.category)).dedup)

lemma insertDesc_perm (a : DataRow) (l : List DataRow) :
    (insertDesc a l).Perm (a :: l) := by
  induction l with
  | nil => simp [insertDesc]
  | cons b bs ih =>
    simp only [insertDesc]
    split
    · exact List.Perm.refl _
    · exact (ih.cons b).trans (List.Perm.swap a b bs)

lemma sortByCreatedDesc_perm (l : List DataRow) :
    (sortByCreatedDesc l).Perm l := by
  induction l with
  | nil => simp [sortByCreatedDesc]
  | cons a as ih =>
    exact (insertDesc_perm a (sortByCreatedDesc as)).trans (ih.cons a)

lemma insertDesc_pairwise (a : DataRow) (l : List DataRow)
    (h : l.Pairwise (fun x y => y.created_at ≤ x.created_at)) :
    (insertDesc a l).Pairwise (fun x y => y.created_at ≤ x.created_at) := by
  induction l with
  | nil => simp [insertDesc]
  | cons b bs ih =>
    rw [List.pairwise_cons] at h
    obtain ⟨hb, hbs⟩ := h
    by_cases hle : b.created_at ≤ a.created_at
    · simp only [insertDesc, if_pos hle]
      rw [List.pairwise_cons]
      refine ⟨?_, List.pairwise_cons.mpr ⟨hb, hbs⟩⟩
      intro x hx
      rcases List.mem_cons.mp hx with hx | hx
      · exact hx ▸ hle
      · exact (hb x hx).trans hle
    · simp only [insertDesc, if_neg hle]
      rw [List.pairwise_cons]
      refine ⟨?_, ih hbs⟩
      intro x hx
      have hx2 : x ∈ a :: bs := (insertDesc_perm a bs).mem_iff.mp hx
      rcases List.mem_cons.mp hx2 with hx2 | hx2
      · exact hx2 ▸ le_of_not_le hle
      · exact hb x hx2

lemma sortByCreatedDesc_pairwise (l : List DataRow) :
    (sortByCreatedDesc l).Pairwise (fun x y => y.created_at ≤ x.created_at) := by
  induction l with
  | nil => simp [sortByCreatedDesc]
  | cons a as ih => exact insertDesc_pairwise a (sortByCreatedDesc as) ih

/-- The row predicate the `get_user_data` SQL actually implements: the
caller's `user_id`, and an exact `category` match only when the supplied
category is truthy (non-`None` and non-empty). -/
def queryPred (user_id : Nat) (category : Option (List Char)) (r : DataRow) :
    Bool :=
  r.user_id == user_id &&
    (if categoryTruthy category then r.category == category.getD [] else true)

lemma hexSubset_no_dollar (l : List Char) (h : ∀ c ∈ l, c ∈ hexDigits) :
    '$' ∉ l :=
  fun hm => absurd (h '$' hm) (by decide)

/-- `verify_password` accepts any `hash_password` output whose salt is
dollar-free, against the hashed password itself. -/
lemma verify_password_hash (kdf : List Char → List Char → List Nat)
    (fs p salt : List Char) (h : '$' ∉ salt) :
    verify_password kdf (hash_password kdf fs p (some salt)) p = some true := by
  unfold verify_password
  rw [splitD_hash_password kdf fs p salt h]
  show some ((hash_password kdf [] p (some salt) ==
      hash_password kdf fs p (some salt))) = some true
  simp [show hash_password kdf [] p (some salt) =
    hash_password kdf fs p (some salt) from rfl]

/-! Concrete fixtures used by witnesses and counterexamples.  `kdfC` is one
concrete stand-in for the external PBKDF2 primitive (any function of
`(password, salt)` satisfies the theorems above); the remaining values are
small literal strings and states. -/

/-- A concrete key-derivation stand-in used only to instantiate theorems. -/
def kdfC : List Char → List Char → List Nat :=
  fun p s => [(p.length * 31 + s.length) % 256]

/-- A concrete `secrets.token_hex(16)`-style salt (hex alphabet). -/
def fsC : List Char := ['a', 'b', 'c', 'd']

/-- A second fresh salt, to state determinism across distinct RNG draws. -/
def fs2C : List Char := ['e', 'f', '0', '1']

/-- A concrete explicit salt drawn from the hex alphabet. -/
def saltC : List Char := ['0', '1', 'a', 'b']

/-- A concrete password. -/
def pwC : List Char := ['P', 'w', '1']

/-- A second concrete password. -/
def pw2C : List Char := ['Q', 'x', '2', 'z']

/-- A concrete wrong login candidate. -/
def pwBadC : List Char := ['x']

/-- Concrete usernames. -/
def aliceU : List Char := ['a', 'l', 'i', 'c', 'e']

/-- Concrete usernames. -/
def bobU : List Char := ['b', 'o', 'b']

/-- The store right after `create_tables` on a fresh file: all three tables
empty. -/
def emptyDb : Database := ⟨[], [], [], 1, 1⟩

/-- The store after registering `alice` with an empty email. -/
def dbAlice : Database :=
  (register_user emptyDb false kdfC fsC 1 aliceU pwC []).2

/-- A registered active user `bob` with a `hash_password`-produced hash. -/
def bobRow : UserRow :=
  ⟨1, bobU, hash_password kdfC fsC pwC none, [], 1, none, true⟩

/-- The store containing exactly `bob`. -/
def dbBob : Database := ⟨[bobRow], [], [], 2, 1⟩

/-- The string `"Work"`. -/
def workS : List Char := ['W', 'o', 'r', 'k']

/-- The string `"General"`, the schema default for `category`. -/
def generalS : List Char := ['G', 'e', 'n', 'e', 'r', 'a', 'l']

/-- A concrete record title. -/
def titleC : List Char := ['T']

/-- A concrete record body. -/
def bodyC : List Char := ['B']

/-- A record owned by user 1 in category `"Work"`. -/
def rowW : DataRow := ⟨1, 1, titleC, bodyC, workS, 10, 10⟩

/-- The store containing exactly `rowW`. -/
def dbW : Database := ⟨[], [rowW], [], 1, 2⟩

/-- C1: for every password and every salt drawn from the hex alphabet,
`hash_password` is deterministic — two calls with the same `(password, salt)`
pair agree even when the generator `secrets.token_hex` would have produced
different fresh salts — and `verify_password` accepts the stored hash against
the original password; in particular this holds with the salt omitted
(`salt=None`), where the freshly generated hex salt is used. -/
theorem hash_password_deterministic_and_verifiable
    (kdf : List Char → List Char → List Nat) (fs1 fs2 p salt : List Char)
    (hsalt : ∀ c ∈ salt, c ∈ hexDigits) (hfs : ∀ c ∈ fs1, c ∈ hexDigits) :
    hash_password kdf fs1 p (some salt) = hash_password kdf fs2 p (some salt) ∧
    verify_password kdf (hash_password kdf fs1 p (some salt)) p = some true ∧
    verify_password kdf (hash_password kdf fs1 p none) p = some true := by
  refine ⟨rfl, verify_password_hash kdf fs1 p salt (hexSubset_no_dollar salt hsalt), ?_⟩
  have : hash_password kdf fs1 p none = hash_password kdf fs1 p (some fs1) := rfl
  rw [this]
  exact verify_password_hash kdf fs1 p fs1 (hexSubset_no_dollar fs1 hfs)

/-- Witness for C1 at concrete values. -/
theorem hash_password_deterministic_and_verifiable_witness :
    hash_password kdfC fsC pwC (some saltC) =
      hash_password kdfC fs2C pwC (some saltC) ∧
    verify_password kdfC (hash_password kdfC fsC pwC (some saltC)) pwC =
      some true ∧
    verify_password kdfC (hash_password kdfC fsC pwC none) pwC = some true :=
  hash_password_deterministic_and_verifiable kdfC fsC fs2C pwC saltC
    (by decide) (by decide)

/-- C9: `verify_password` is total only on well-formed stored hashes: when
the stored string does not contain exactly one `'$'`, the tuple unpacking of
`split('$')` raises (`none`); every `hash_password` output with a hex salt
splits into exactly two parts and yields a boolean verdict. -/
theorem verify_password_totality
    (kdf : List Char → List Char → List Nat)
    (stored cand p salt fs : List Char)
    (hbad : stored.count '$' ≠ 1) (hsalt : ∀ c ∈ salt, c ∈ hexDigits) :
    verify_password kdf stored cand = none ∧
    (splitD (hash_password kdf fs p (some salt))).length = 2 ∧
    (verify_password kdf (hash_password kdf fs p (some salt)) cand).isSome =
      true := by
  have hnd : '$' ∉ salt := hexSubset_no_dollar salt hsalt
  refine ⟨?_, ?_, ?_⟩
  · have hlen : (splitD stored).length ≠ 2 := by
      rw [splitD_length]; omega
    unfold verify_password
    rcases hsp : splitD stored with _ | ⟨a, _ | ⟨b, _ | ⟨c, rest⟩⟩⟩
    · rfl
    · rfl
    · exfalso; apply hlen; rw [hsp]; rfl
    · rfl
  · rw [splitD_hash_password kdf fs p salt hnd]; rfl
  · unfold verify_password
    rw [splitD_hash_password kdf fs p salt hnd]
    rfl

/-- Witness for C9 at concrete values (stored string `"x"` has no `'$'`). -/
theorem verify_password_totality_witness :
    verify_password kdfC ['x'] pwBadC = none ∧
    (splitD (hash_password kdfC fsC pwC (some saltC))).length = 2 ∧
    (verify_password kdfC (hash_password kdfC fsC pwC (some saltC))
      pwBadC).isSome = true :=
  verify_password_totality kdfC ['x'] pwBadC pwC saltC fsC (by decide) (by decide)

/-- C2 counterexample: after registering `alice` with an empty email, a
second registration with the distinct username `bob` and an empty email does
NOT succeed — the duplicate check `WHERE username = ? OR email = ?` matches
the stored empty email and the call fails with `DuplicateUser`. -/
theorem register_second_empty_email_rejected :
    (register_user dbAlice false kdfC fsC 2 bobU pw2C []).1 =
      RegResult.duplicateUser := by decide

/-- C2 amended: the duplicate check rejects a matching username or a
matching email with no non-empty guard — an empty stored email also
collides.  `register_user` fails with `DuplicateUser` exactly when some
existing user carries the same username or the same (possibly empty)
email. -/
theorem register_user_duplicate_check (db : Database)
    (kdf : List Char → List Char → List Nat) (fs : List Char) (now : Nat)
    (username password email : List Char) :
    (register_user db false kdf fs now username password email).1 =
        RegResult.duplicateUser ↔
      ∃ u ∈ db.users, u.username = username ∨ u.email = email := by
  have key : (db.users.any
        (fun u => u.username == username || u.email == email) = true) ↔
      (∃ u ∈ db.users, u.username = username ∨ u.email = email) := by
    simp [List.any_eq_true]
  cases hany : db.users.any (fun u => u.username == username || u.email == email) with
  | false =>
    rw [← key, hany]
    simp [register_user, hany]
  | true =>
    rw [← key, hany]
    simp [register_user, hany]

/-- C4: when the store already holds exactly one row for a username, a second
registration with that username fails with `DuplicateUser`, the store is
returned unchanged, and afterwards there is still exactly one row for that
username. -/
theorem register_user_duplicate_username (db : Database)
    (kdf : List Char → List Char → List Nat) (fs : List Char) (now : Nat)
    (username password email : List Char)
    (h : db.users.countP (fun u => u.username == username) = 1) :
    register_user db false kdf fs now username password email =
      (RegResult.duplicateUser, db) ∧
    (register_user db false kdf fs now username password email).2.users.countP
      (fun u => u.username == username) = 1 := by
  have hpos : 0 < db.users.countP (fun u => u.username == username) := by omega
  obtain ⟨u, hu, hp⟩ := List.countP_pos_iff.mp hpos
  have hany : db.users.any
      (fun v => v.username == username || v.email == email) = true :=
    List.any_eq_true.mpr ⟨u, hu, by simp [hp]⟩
  have hreg : register_user db false kdf fs now username password email =
      (RegResult.duplicateUser, db) := by
    simp [register_user, hany]
  exact ⟨hreg, by rw [hreg]; exact h⟩

/-- Witness for C4: re-registering `alice` on the one-user store fails and
keeps exactly one `alice` row. -/
theorem register_user_duplicate_username_witness :
    register_user dbAlice false kdfC fsC 7 aliceU pw2C [] =
      (RegResult.duplicateUser, dbAlice) ∧
    (register_user dbAlice false kdfC fsC 7 aliceU pw2C []).2.users.countP
      (fun u => u.username == aliceU) = 1 :=
  register_user_duplicate_username dbAlice kdfC fsC 7 aliceU pw2C [] (by decide)

/-- C5: for a registered active user found by the login lookup and a
candidate password whose verification against the stored hash yields
`false`, `login_user` fails with `WrongPassword` and returns the store
unchanged — in particular no `last_login` field is mutated. -/
theorem login_user_wrong_password (db : Database)
    (kdf : List Char → List Char → List Nat) (now : Nat)
    (username password : List Char) (u : UserRow)
    (hfind : db.users.find? (fun v => v.username == username && v.is_active) =
      some u)
    (hver : verify_password kdf u.password password = some false) :
    login_user db false kdf now username password =
      some (LoginResult.wrongPassword, db) := by
  simp [login_user, hfind, hver]

/-- Witness for C5: `bob` with a wrong candidate password. -/
theorem login_user_wrong_password_witness :
    login_user dbBob false kdfC 5 bobU pwBadC =
      some (LoginResult.wrongPassword, dbBob) :=
  login_user_wrong_password dbBob kdfC 5 bobU pwBadC bobRow
    (by decide) (by decide)

/-- The `login_attempts` table after a login call, taking the prior table
when the call ends in an uncaught exception. -/
def attemptsAfter (res : Option (LoginResult × Database))
    (prev : List AttemptRow) : List AttemptRow :=
  (res.map (fun r => r.2.login_attempts)).getD prev

/-- C3 (code gap): `login_user` never inserts into `login_attempts` — on
every outcome (success, `NotFoundOrInactive`, `WrongPassword`, store error)
the table is left exactly as it was, while the specified behavior is to
append one `LoginAttempt` row per call. -/
theorem login_user_never_records_attempt (db : Database) (fail : Bool)
    (kdf : List Char → List Char → List Nat) (now : Nat)
    (username password : List Char) :
    attemptsAfter (login_user db fail kdf now username password)
        db.login_attempts = db.login_attempts := by
  unfold login_user attemptsAfter
  cases fail with
  | true => simp
  | false =>
    simp only [Bool.false_eq_true, if_false]
    cases hfind : db.users.find? (fun u => u.username == username && u.is_active) with
    | none => simp
    | some u =>
      cases hver : verify_password kdf u.password password with
      | none => simp [hver]
      | some b =>
        cases b with
        | true => simp [hver]
        | false => simp [hver]

/-- C7 counterexample: a `save_user_data` call whose `category` argument is
the blank string inserts a row whose category is blank, not `"General"`. -/
theorem save_blank_category_stores_blank :
    ((save_user_data emptyDb false 3 1 titleC bodyC []).2.user_data.map
        (fun r => r.category)) = [[]] ∧
      ([] : List Char) ≠ generalS := ⟨rfl, by decide⟩

/-- C7 amended: the store-level `save_user_data` inserts the supplied
`category` string verbatim — a blank category is stored blank; the
`"General"` default is a Python default argument, applied only when the
caller omits the parameter (the blank-to-General substitution in this
program lives in the UI caller `save_data`, not in the store). -/
theorem save_user_data_stores_category_verbatim (db : Database) (now : Nat)
    (user_id : Nat) (title data category : List Char) :
    (save_user_data db false now user_id title data category).1 = true ∧
    ((save_user_data db false now user_id title data category).2.user_data.map
        (fun r => r.category)) =
      db.user_data.map (fun r => r.category) ++ [category] := by
  exact ⟨rfl, by simp [save_user_data]⟩

/-- C8 counterexample: with the empty string supplied as the category
argument, `get_user_data` applies no category filter at all (Python `if
category:` is false on `""`) and returns a record whose category differs
from the given one. -/
theorem get_user_data_empty_category_unfiltered :
    get_user_data dbW false 1 (some []) = [rowW] ∧ rowW.category ≠ [] :=
  ⟨by decide, by decide⟩

/-- C8 amended: `get_user_data` returns exactly the caller's rows — filtered
by an exact category match only when the supplied category is truthy
(non-`None` and non-empty, per Python `if category:`) — as a permutation of
the matching rows ordered by `created_at` descending; in particular when no
row matches the result is the empty list. -/
theorem get_user_data_spec (db : Database) (user_id : Nat)
    (category : Option (List Char)) :
    (get_user_data db false user_id category).Perm
        (db.user_data.filter (queryPred user_id category)) ∧
    (get_user_data db false user_id category).Pairwise
        (fun a b => b.created_at ≤ a.created_at) := by
  constructor
  · unfold get_user_data
    cases ht : categoryTruthy category with
    | true =>
      simp only [Bool.false_eq_true, if_false, ht, if_true]
      have hfc : db.user_data.filter (queryPred user_id category) =
          db.user_data.filter
            (fun r => r.user_id == user_id && r.category == category.getD []) :=
        List.filter_congr (fun x _ => by simp [queryPred, ht])
      rw [hfc]
      exact sortByCreatedDesc_perm _
    | false =>
      simp only [Bool.false_eq_true, if_false, ht]
      have hfc : db.user_data.filter (queryPred user_id category) =
          db.user_data.filter (fun r => r.user_id == user_id) :=
        List.filter_congr (fun x _ => by simp [queryPred, ht])
      rw [hfc]
      exact sortByCreatedDesc_perm _
  · unfold get_user_data
    cases ht : categoryTruthy category with
    | true =>
      simp only [Bool.false_eq_true, if_false, ht, if_true]
      exact sortByCreatedDesc_pairwise _
    | false =>
      simp only [Bool.false_eq_true, if_false, ht]
      exact sortByCreatedDesc_pairwise _

/-- C10: when the underlying store raises (`fail = true`), `get_user_data`
and `get_categories` both swallow the `sqlite3.Error` and return the empty
list — exactly what they return for a user with no records — so a store
failure is indistinguishable from an empty result at this interface. -/
theorem store_failure_indistinguishable_from_no_records (db : Database)
    (user_id : Nat) (category : Option (List Char)) :
    get_user_data db true user_id category = [] ∧
    get_categories db true user_id = [] ∧
    get_user_data emptyDb false user_id category = [] ∧
    get_categories emptyDb false user_id = [] := by
  refine ⟨rfl, rfl, ?_, rfl⟩
  unfold get_user_data
  cases ht : categoryTruthy category with
  | true => simp [ht, emptyDb, sortByCreatedDesc]
  | false => simp [ht, emptyDb, sortByCreatedDesc]
